import Mathlib

/-!
Verification of the chip-sampling core of `torchgeo/samplers/utils.py`:
`_to_tuple`, `get_random_bounding_box`,
`get_random_bounding_box_check_valid_overlap` and `tile_to_chips`.

Coordinates are embedded as rationals.  Python's float floor-division
`a // b` is modelled as `Int.floor (a / b)`; the uniform random source
`torch.rand(1).item()` is modelled as an explicit rational argument
(one per axis, a stream of pairs for the retry loop), constrained to
`[0, 1)` where a claim needs it.  The `while True` retry loop is embedded
as fuel-based recursion; the runner supplies enough fuel and we prove it
always returns a value together with the retry count.
-/

/-- The six-field axis-aligned bounding box (external collaborator
`torchgeo.datasets.BoundingBox`): spatial x/y extent plus time extent. -/
structure BoundingBox where
  minx : ℚ
  maxx : ℚ
  miny : ℚ
  maxy : ℚ
  mint : ℚ
  maxt : ℚ
deriving DecidableEq

/-- The scalar-or-pair size argument `Union[tuple[float, float], float]`. -/
inductive SizeSpec where
  | scalar (v : ℚ)
  | pair (h w : ℚ)
deriving DecidableEq

/-- `_to_tuple`: convert value to a (height, width) tuple if it is not
already a tuple; a scalar is duplicated onto both components. -/
def _to_tuple : SizeSpec → ℚ × ℚ
  | SizeSpec.scalar v => (v, v)
  | SizeSpec.pair h w => (h, w)

/-- `get_random_bounding_box bounds size res ux uy`: the random draws
`torch.rand(1).item()` for the x and y axes are passed in as `ux`, `uy`.
`width`/`height` are the slack counts computed with floor division, an
axis is offset only when its slack is strictly positive, and the time
extent is copied verbatim. -/
def get_random_bounding_box (bounds : BoundingBox) (size : SizeSpec)
    (res ux uy : ℚ) : BoundingBox :=
  let t_size := _to_tuple size
  let width : ℤ := Int.floor ((bounds.maxx - bounds.minx - t_size.2) / res)
  let height : ℤ := Int.floor ((bounds.maxy - bounds.miny - t_size.1) / res)
  let minx : ℚ := if 0 < width then bounds.minx + ux * width * res else bounds.minx
  let miny : ℚ := if 0 < height then bounds.miny + uy * height * res else bounds.miny
  { minx := minx
    maxx := minx + t_size.2
    miny := miny
    maxy := miny + t_size.1
    mint := bounds.mint
    maxt := bounds.maxt }

/-- A planar rectangle, standing for the shapely box polygon built by
`shapely.geometry.box(minx, miny, maxx, maxy)`. -/
structure Rect where
  minx : ℚ
  miny : ℚ
  maxx : ℚ
  maxy : ℚ
deriving DecidableEq

/-- `shapely.geometry.box`: rectangle polygon from planar corners. -/
def shapely_box (minx miny maxx maxy : ℚ) : Rect :=
  { minx := minx, miny := miny, maxx := maxx, maxy := maxy }

/-- Spatial subset relation on rectangles (DE-9IM "A is covered by B"
for axis-aligned boxes): every point of `a` lies in `b`. -/
def rect_subset (a b : Rect) : Bool :=
  decide (b.minx ≤ a.minx ∧ a.maxx ≤ b.maxx ∧ b.miny ≤ a.miny ∧ a.maxy ≤ b.maxy)

/-- The interiors of two axis-aligned rectangles intersect in a
two-dimensional region. -/
def rect_interiors_intersect (a b : Rect) : Bool :=
  decide (max a.minx b.minx < min a.maxx b.maxx ∧ max a.miny b.miny < min a.maxy b.maxy)

/-- The external collaborator `shapely.overlaps`, modelled from shapely's
documented DE-9IM semantics for two geometries of the same (full)
dimension: their interiors intersect in that dimension and neither
geometry is contained in the other. -/
def shapely_overlaps (a b : Rect) : Bool :=
  rect_interiors_intersect a b && !rect_subset a b && !rect_subset b a

/-- The external collaborator `shapely.within`, modelled from shapely's
documented DE-9IM semantics: `a` is a subset of `b` and their interiors
intersect. -/
def shapely_within (a b : Rect) : Bool :=
  rect_subset a b && rect_interiors_intersect a b

/-- One fuel-indexed unfolding of the `while True` loop of
`get_random_bounding_box_check_valid_overlap`.  `retries` is the counter
before the iteration; each iteration increments it, draws a candidate
(consuming the random pair `us r` of the iteration), and returns the
candidate together with the final counter when the predicate holds or
`retries >= max_retries`.  `none` means the fuel ran out, which the
runner below is proved never to hit. -/
def check_valid_aux (bounds : BoundingBox) (spatial_operator : Rect → Rect → Bool)
    (size : SizeSpec) (res : ℚ) (valid_footprint : Rect) (max_retries : ℤ)
    (us : ℕ → ℚ × ℚ) : ℕ → ℕ → Option (BoundingBox × ℕ)
  | 0, _ => none
  | fuel + 1, retries =>
    let r := retries + 1
    let bounding_box := get_random_bounding_box bounds size res (us r).1 (us r).2
    let bbox := shapely_box bounding_box.minx bounding_box.miny
      bounding_box.maxx bounding_box.maxy
    if spatial_operator bbox valid_footprint || decide (max_retries ≤ (r : ℤ)) then
      some (bounding_box, r)
    else
      check_valid_aux bounds spatial_operator size res valid_footprint max_retries us fuel r

/-- `get_random_bounding_box_check_valid_overlap`: the retry loop, started
with `retries = 0` and enough fuel (`max 1 max_retries` iterations) to be
proved total.  The returned pair also reports the number of iterations
taken, so the claims about retry counts can be stated. -/
def get_random_bounding_box_check_valid_overlap (bounds : BoundingBox)
    (spatial_operator : Rect → Rect → Bool) (size : SizeSpec) (res : ℚ)
    (valid_footprint : Rect) (max_retries : ℤ) (us : ℕ → ℚ × ℚ) :
    Option (BoundingBox × ℕ) :=
  check_valid_aux bounds spatial_operator size res valid_footprint max_retries us
    (max 1 max_retries).toNat 0

/-- `tile_to_chips`: number of chip rows/columns sampled from a tile.
The two `assert` statements on the stride are modelled by returning
`none` (an `AssertionError`) when either stride component is not
strictly positive; `stride` defaults to `size` when absent. -/
def tile_to_chips (bounds : BoundingBox) (size : ℚ × ℚ)
    (stride : Option (ℚ × ℚ)) : Option (ℤ × ℤ) :=
  let s := stride.getD size
  if 0 < s.1 ∧ 0 < s.2 then
    some (Int.ceil ((bounds.maxy - bounds.miny - size.1) / s.1) + 1,
          Int.ceil ((bounds.maxx - bounds.minx - size.2) / s.2) + 1)
  else
    none

lemma offset_mem (lo hi w res u : ℚ) (W : ℤ) (hres : 0 < res) (hu0 : 0 ≤ u)
    (hu1 : u < 1) (hw : w ≤ hi - lo) (hW : W = Int.floor ((hi - lo - w) / res)) :
    lo ≤ (if 0 < W then lo + u * W * res else lo) ∧
      (if 0 < W then lo + u * W * res else lo) + w ≤ hi := by
  by_cases hpos : 0 < W
  · have hWle : (W : ℚ) ≤ (hi - lo - w) / res := hW ▸ Int.floor_le _
    have hWr : (W : ℚ) * res ≤ hi - lo - w := (le_div_iff₀ hres).mp hWle
    have hWpos : (0 : ℚ) < (W : ℚ) * res :=
      mul_pos (by exact_mod_cast hpos) hres
    have hlt : u * ((W : ℚ) * res) < 1 * ((W : ℚ) * res) :=
      mul_lt_mul_of_pos_right hu1 hWpos
    simp only [if_pos hpos]
    constructor
    · nlinarith
    · nlinarith
  · simp only [if_neg hpos]
    exact ⟨le_refl lo, by linarith⟩

lemma grbb_fields (bounds : BoundingBox) (size : SizeSpec) (res ux uy : ℚ) :
    (get_random_bounding_box bounds size res ux uy).minx =
      (if 0 < Int.floor ((bounds.maxx - bounds.minx - (_to_tuple size).2) / res) then
        bounds.minx + ux * (Int.floor ((bounds.maxx - bounds.minx - (_to_tuple size).2) / res) : ℚ) * res
      else bounds.minx) ∧
    (get_random_bounding_box bounds size res ux uy).maxx =
      (get_random_bounding_box bounds size res ux uy).minx + (_to_tuple size).2 ∧
    (get_random_bounding_box bounds size res ux uy).miny =
      (if 0 < Int.floor ((bounds.maxy - bounds.miny - (_to_tuple size).1) / res) then
        bounds.miny + uy * (Int.floor ((bounds.maxy - bounds.miny - (_to_tuple size).1) / res) : ℚ) * res
      else bounds.miny) ∧
    (get_random_bounding_box bounds size res ux uy).maxy =
      (get_random_bounding_box bounds size res ux uy).miny + (_to_tuple size).1 ∧
    (get_random_bounding_box bounds size res ux uy).mint = bounds.mint ∧
    (get_random_bounding_box bounds size res ux uy).maxt = bounds.maxt := by
  simp [get_random_bounding_box]

/-- C1: for any bounds, any size spec whose height and width are at most
the corresponding spatial extent of the bounds, any positive resolution
and any random draws in [0,1), the random bounding box stays inside the
bounds spatially, has exactly the requested width and height, and copies
the time extent verbatim. -/
theorem c1_random_box_contained (bounds : BoundingBox) (size : SizeSpec)
    (res ux uy : ℚ) (hres : 0 < res)
    (hh : (_to_tuple size).1 ≤ bounds.maxy - bounds.miny)
    (hw : (_to_tuple size).2 ≤ bounds.maxx - bounds.minx)
    (hux0 : 0 ≤ ux) (hux1 : ux < 1) (huy0 : 0 ≤ uy) (huy1 : uy < 1) :
    bounds.minx ≤ (get_random_bounding_box bounds size res ux uy).minx ∧
    (get_random_bounding_box bounds size res ux uy).maxx ≤ bounds.maxx ∧
    bounds.miny ≤ (get_random_bounding_box bounds size res ux uy).miny ∧
    (get_random_bounding_box bounds size res ux uy).maxy ≤ bounds.maxy ∧
    (get_random_bounding_box bounds size res ux uy).maxx -
      (get_random_bounding_box bounds size res ux uy).minx = (_to_tuple size).2 ∧
    (get_random_bounding_box bounds size res ux uy).maxy -
      (get_random_bounding_box bounds size res ux uy).miny = (_to_tuple size).1 ∧
    (get_random_bounding_box bounds size res ux uy).mint = bounds.mint ∧
    (get_random_bounding_box bounds size res ux uy).maxt = bounds.maxt := by
  obtain ⟨ex, ax, ey, ay, et, at'⟩ := grbb_fields bounds size res ux uy
  have hx := offset_mem bounds.minx bounds.maxx (_to_tuple size).2 res ux _
    hres hux0 hux1 hw rfl
  have hy := offset_mem bounds.miny bounds.maxy (_to_tuple size).1 res uy _
    hres huy0 huy1 hh rfl
  rw [ax, ay, et, at', ex, ey]
  exact ⟨hx.1, hx.2, hy.1, hy.2, by ring, by ring, rfl, rfl⟩

theorem c1_witness :
    (0:ℚ) ≤ (get_random_bounding_box ⟨0, 10, 0, 10, 0, 1⟩
      (SizeSpec.scalar 5) 1 (1/2) (1/2)).minx ∧
    (get_random_bounding_box ⟨0, 10, 0, 10, 0, 1⟩
      (SizeSpec.scalar 5) 1 (1/2) (1/2)).maxx ≤ 10 ∧
    (0:ℚ) ≤ (get_random_bounding_box ⟨0, 10, 0, 10, 0, 1⟩
      (SizeSpec.scalar 5) 1 (1/2) (1/2)).miny ∧
    (get_random_bounding_box ⟨0, 10, 0, 10, 0, 1⟩
      (SizeSpec.scalar 5) 1 (1/2) (1/2)).maxy ≤ 10 ∧
    (get_random_bounding_box ⟨0, 10, 0, 10, 0, 1⟩
        (SizeSpec.scalar 5) 1 (1/2) (1/2)).maxx -
      (get_random_bounding_box ⟨0, 10, 0, 10, 0, 1⟩
        (SizeSpec.scalar 5) 1 (1/2) (1/2)).minx =
      (_to_tuple (SizeSpec.scalar 5)).2 ∧
    (get_random_bounding_box ⟨0, 10, 0, 10, 0, 1⟩
        (SizeSpec.scalar 5) 1 (1/2) (1/2)).maxy -
      (get_random_bounding_box ⟨0, 10, 0, 10, 0, 1⟩
        (SizeSpec.scalar 5) 1 (1/2) (1/2)).miny =
      (_to_tuple (SizeSpec.scalar 5)).1 ∧
    (get_random_bounding_box ⟨0, 10, 0, 10, 0, 1⟩
      (SizeSpec.scalar 5) 1 (1/2) (1/2)).mint = (0:ℚ) ∧
    (get_random_bounding_box ⟨0, 10, 0, 10, 0, 1⟩
      (SizeSpec.scalar 5) 1 (1/2) (1/2)).maxt = (1:ℚ) :=
  c1_random_box_contained ⟨0, 10, 0, 10, 0, 1⟩ (SizeSpec.scalar 5) 1 (1/2) (1/2)
    (by norm_num) (by norm_num [_to_tuple]) (by norm_num [_to_tuple])
    (by norm_num) (by norm_num) (by norm_num) (by norm_num)

/-- C8: the size normalizer returns (v, v) on a scalar and returns a pair
unchanged; it is a total pure function. -/
theorem c8_to_tuple_normalizes :
    (∀ v : ℚ, _to_tuple (SizeSpec.scalar v) = (v, v)) ∧
    (∀ h w : ℚ, _to_tuple (SizeSpec.pair h w) = (h, w)) :=
  ⟨fun _ => rfl, fun _ _ => rfl⟩

lemma slack_axis (lo hi w res u : ℚ) (hres : 0 < res) :
    (hi - lo < w → Int.floor ((hi - lo - w) / res) < 0) ∧
    (w = hi - lo → Int.floor ((hi - lo - w) / res) = 0) ∧
    (Int.floor ((hi - lo - w) / res) ≤ 0 →
      (if 0 < Int.floor ((hi - lo - w) / res) then
        lo + u * (Int.floor ((hi - lo - w) / res) : ℚ) * res
      else lo) = lo) := by
  refine ⟨?_, ?_, ?_⟩
  · intro hlt
    have hneg : (hi - lo - w) / res < 0 :=
      div_neg_of_neg_of_pos (by linarith) hres
    exact_mod_cast Int.floor_lt.mpr (by exact_mod_cast hneg)
  · intro heq
    rw [heq]
    simp
  · intro hle
    rw [if_neg (not_lt.mpr hle)]

/-- C5: the slack on each axis is the floor of (extent - size) / res, it
is negative (not zero) when the size exceeds the extent and zero when the
size equals the extent; whenever the slack is not strictly positive the
near corner on that axis equals the bound's minimum, and when the size
exceeds the extent the far corner extends strictly past the bound. -/
theorem c5_slack_degenerate (bounds : BoundingBox) (size : SizeSpec)
    (res ux uy : ℚ) (hres : 0 < res) :
    (bounds.maxx - bounds.minx < (_to_tuple size).2 →
      Int.floor ((bounds.maxx - bounds.minx - (_to_tuple size).2) / res) < 0) ∧
    ((_to_tuple size).2 = bounds.maxx - bounds.minx →
      Int.floor ((bounds.maxx - bounds.minx - (_to_tuple size).2) / res) = 0) ∧
    (Int.floor ((bounds.maxx - bounds.minx - (_to_tuple size).2) / res) ≤ 0 →
      (get_random_bounding_box bounds size res ux uy).minx = bounds.minx) ∧
    (bounds.maxx - bounds.minx < (_to_tuple size).2 →
      bounds.maxx < (get_random_bounding_box bounds size res ux uy).maxx) ∧
    (bounds.maxy - bounds.miny < (_to_tuple size).1 →
      Int.floor ((bounds.maxy - bounds.miny - (_to_tuple size).1) / res) < 0) ∧
    ((_to_tuple size).1 = bounds.maxy - bounds.miny →
      Int.floor ((bounds.maxy - bounds.miny - (_to_tuple size).1) / res) = 0) ∧
    (Int.floor ((bounds.maxy - bounds.miny - (_to_tuple size).1) / res) ≤ 0 →
      (get_random_bounding_box bounds size res ux uy).miny = bounds.miny) ∧
    (bounds.maxy - bounds.miny < (_to_tuple size).1 →
      bounds.maxy < (get_random_bounding_box bounds size res ux uy).maxy) := by
  obtain ⟨ex, ax, ey, ay, _, _⟩ := grbb_fields bounds size res ux uy
  obtain ⟨hx1, hx2, hx3⟩ :=
    slack_axis bounds.minx bounds.maxx (_to_tuple size).2 res ux hres
  obtain ⟨hy1, hy2, hy3⟩ :=
    slack_axis bounds.miny bounds.maxy (_to_tuple size).1 res uy hres
  have hminx : ∀ _ : Int.floor ((bounds.maxx - bounds.minx - (_to_tuple size).2) / res) ≤ 0,
      (get_random_bounding_box bounds size res ux uy).minx = bounds.minx :=
    fun h => ex.trans (hx3 h)
  have hminy : ∀ _ : Int.floor ((bounds.maxy - bounds.miny - (_to_tuple size).1) / res) ≤ 0,
      (get_random_bounding_box bounds size res ux uy).miny = bounds.miny :=
    fun h => ey.trans (hy3 h)
  refine ⟨hx1, hx2, hminx, ?_, hy1, hy2, hminy, ?_⟩
  · intro hlt
    have h0 := hminx (le_of_lt (hx1 hlt))
    rw [ax, h0]
    linarith
  · intro hlt
    have h0 := hminy (le_of_lt (hy1 hlt))
    rw [ay, h0]
    linarith

theorem c5_witness :
    ((10:ℚ) - 0 < (_to_tuple (SizeSpec.scalar 12)).2 →
      Int.floor (((10:ℚ) - 0 - (_to_tuple (SizeSpec.scalar 12)).2) / 1) < 0) ∧
    ((_to_tuple (SizeSpec.scalar 12)).2 = (10:ℚ) - 0 →
      Int.floor (((10:ℚ) - 0 - (_to_tuple (SizeSpec.scalar 12)).2) / 1) = 0) ∧
    (Int.floor (((10:ℚ) - 0 - (_to_tuple (SizeSpec.scalar 12)).2) / 1) ≤ 0 →
      (get_random_bounding_box ⟨0, 10, 0, 10, 0, 1⟩
        (SizeSpec.scalar 12) 1 (1/2) (1/2)).minx = 0) ∧
    ((10:ℚ) - 0 < (_to_tuple (SizeSpec.scalar 12)).2 →
      (10:ℚ) < (get_random_bounding_box ⟨0, 10, 0, 10, 0, 1⟩
        (SizeSpec.scalar 12) 1 (1/2) (1/2)).maxx) ∧
    ((10:ℚ) - 0 < (_to_tuple (SizeSpec.scalar 12)).1 →
      Int.floor (((10:ℚ) - 0 - (_to_tuple (SizeSpec.scalar 12)).1) / 1) < 0) ∧
    ((_to_tuple (SizeSpec.scalar 12)).1 = (10:ℚ) - 0 →
      Int.floor (((10:ℚ) - 0 - (_to_tuple (SizeSpec.scalar 12)).1) / 1) = 0) ∧
    (Int.floor (((10:ℚ) - 0 - (_to_tuple (SizeSpec.scalar 12)).1) / 1) ≤ 0 →
      (get_random_bounding_box ⟨0, 10, 0, 10, 0, 1⟩
        (SizeSpec.scalar 12) 1 (1/2) (1/2)).miny = 0) ∧
    ((10:ℚ) - 0 < (_to_tuple (SizeSpec.scalar 12)).1 →
      (10:ℚ) < (get_random_bounding_box ⟨0, 10, 0, 10, 0, 1⟩
        (SizeSpec.scalar 12) 1 (1/2) (1/2)).maxy) :=
  c5_slack_degenerate ⟨0, 10, 0, 10, 0, 1⟩ (SizeSpec.scalar 12) 1 (1/2) (1/2)
    (by norm_num)

/-- C3: with positive stride components (stride defaulting to size when
absent) the grid tiler returns exactly ceil((extent - size) / stride) + 1
rows and columns, and on the two concrete example tiles it returns (2, 2)
and (2, 3). -/
theorem c3_tile_to_chips_formula :
    (∀ (bounds : BoundingBox) (size s : ℚ × ℚ), 0 < s.1 → 0 < s.2 →
      tile_to_chips bounds size (some s) =
        some (Int.ceil ((bounds.maxy - bounds.miny - size.1) / s.1) + 1,
              Int.ceil ((bounds.maxx - bounds.minx - size.2) / s.2) + 1)) ∧
    (∀ (bounds : BoundingBox) (size : ℚ × ℚ),
      tile_to_chips bounds size none = tile_to_chips bounds size (some size)) ∧
    tile_to_chips ⟨0, 10, 0, 10, 0, 1⟩ (5, 5) (some (5, 5)) = some (2, 2) ∧
    tile_to_chips ⟨0, 12, 0, 10, 0, 1⟩ (5, 5) none = some (2, 3) := by
  have hone : Int.ceil (((10:ℚ) - 0 - 5) / 5) = 1 := by
    rw [Int.ceil_eq_iff]
    constructor <;> norm_num
  have htwo : Int.ceil ((7:ℚ) / 5) = 2 := by
    rw [Int.ceil_eq_iff]
    constructor <;> norm_num
  refine ⟨?_, ?_, ?_, ?_⟩
  · intro bounds size s h1 h2
    simp only [tile_to_chips, Option.getD_some]
    rw [if_pos ⟨h1, h2⟩]
  · intro bounds size
    rfl
  · norm_num [tile_to_chips, hone]
  · norm_num [tile_to_chips, hone, htwo]

theorem c3_witness :
    tile_to_chips ⟨0, 10, 0, 10, 0, 1⟩ (5, 5) (some (5, 5)) =
      some (Int.ceil (((10:ℚ) - 0 - 5) / 5) + 1,
            Int.ceil (((10:ℚ) - 0 - 5) / 5) + 1) :=
  c3_tile_to_chips_formula.1 ⟨0, 10, 0, 10, 0, 1⟩ (5, 5) (5, 5)
    (by norm_num) (by norm_num)

/-- C6: the grid tiler fails its stride assertion (modelled as returning
none) for every stride whose height or width component is not strictly
positive, in particular for strides (0, 5) and (5, -1), and always
produces a value when both components are positive. -/
theorem c6_tile_to_chips_stride_assert (bounds : BoundingBox) (size : ℚ × ℚ) :
    (∀ s : ℚ × ℚ, s.1 ≤ 0 ∨ s.2 ≤ 0 →
      tile_to_chips bounds size (some s) = none) ∧
    tile_to_chips bounds size (some (0, 5)) = none ∧
    tile_to_chips bounds size (some (5, -1)) = none ∧
    ∀ s : ℚ × ℚ, 0 < s.1 → 0 < s.2 →
      (tile_to_chips bounds size (some s)).isSome = true := by
  have hfail : ∀ s : ℚ × ℚ, s.1 ≤ 0 ∨ s.2 ≤ 0 →
      tile_to_chips bounds size (some s) = none := by
    intro s hs
    simp only [tile_to_chips, Option.getD_some]
    rw [if_neg]
    rintro ⟨h1, h2⟩
    rcases hs with h | h <;> linarith
  refine ⟨hfail, hfail (0, 5) (Or.inl (le_refl 0)),
    hfail (5, -1) (Or.inr (by norm_num)), ?_⟩
  intro s h1 h2
  simp only [tile_to_chips, Option.getD_some]
  rw [if_pos ⟨h1, h2⟩]
  rfl

theorem c6_witness :
    tile_to_chips ⟨0, 10, 0, 10, 0, 1⟩ (5, 5) (some (-2, 3)) = none ∧
    tile_to_chips ⟨0, 10, 0, 10, 0, 1⟩ (5, 5) (some (0, 5)) = none ∧
    tile_to_chips ⟨0, 10, 0, 10, 0, 1⟩ (5, 5) (some (5, -1)) = none ∧
    (tile_to_chips ⟨0, 10, 0, 10, 0, 1⟩ (5, 5) (some (1, 1))).isSome = true :=
  ⟨(c6_tile_to_chips_stride_assert ⟨0, 10, 0, 10, 0, 1⟩ (5, 5)).1 (-2, 3)
     (Or.inl (by norm_num)),
   (c6_tile_to_chips_stride_assert ⟨0, 10, 0, 10, 0, 1⟩ (5, 5)).2.1,
   (c6_tile_to_chips_stride_assert ⟨0, 10, 0, 10, 0, 1⟩ (5, 5)).2.2.1,
   (c6_tile_to_chips_stride_assert ⟨0, 10, 0, 10, 0, 1⟩ (5, 5)).2.2.2 (1, 1)
     (by norm_num) (by norm_num)⟩

/-- C10: the grid tiler can return a non-positive count without error:
with y-extent 10, height 30 and stride 5 the row count is -3. -/
theorem c10_tile_to_chips_nonpositive :
    tile_to_chips ⟨0, 10, 0, 10, 0, 1⟩ (30, 5) (some (5, 5)) = some (-3, 2) ∧
    (-3 : ℤ) ≤ 0 := by
  have hr : Int.ceil (((10:ℚ) - 0 - 30) / 5) = -4 := by
    rw [Int.ceil_eq_iff]
    constructor <;> norm_num
  have hc : Int.ceil (((10:ℚ) - 0 - 5) / 5) = 1 := by
    rw [Int.ceil_eq_iff]
    constructor <;> norm_num
  have hm : Int.ceil ((-4:ℚ)) = -4 := by
    rw [show ((-4:ℚ)) = ((-4:ℤ):ℚ) by norm_num]
    exact Int.ceil_intCast _
  refine ⟨?_, by norm_num⟩
  norm_num [tile_to_chips, hr, hc, hm]

lemma check_valid_aux_total (bounds : BoundingBox) (op : Rect → Rect → Bool)
    (size : SizeSpec) (res : ℚ) (fp : Rect) (mr : ℤ) (us : ℕ → ℚ × ℚ) :
    ∀ fuel retries : ℕ, 1 ≤ fuel → mr ≤ (retries : ℤ) + fuel →
      ∃ bb r, check_valid_aux bounds op size res fp mr us fuel retries = some (bb, r) ∧
        retries + 1 ≤ r ∧ r ≤ retries + fuel := by
  intro fuel
  induction fuel with
  | zero => omega
  | succ f ih =>
    intro retries _ hmr
    simp only [check_valid_aux]
    split
    case isTrue h =>
      exact ⟨_, _, rfl, le_refl _, by omega⟩
    case isFalse h =>
      simp only [Bool.or_eq_true, decide_eq_true_eq, not_or, not_le] at h
      have hf : 1 ≤ f := by
        by_contra hc
        omega
      obtain ⟨bb, r, heq, h1, h2⟩ := ih (retries + 1) hf (by omega)
      exact ⟨bb, r, heq, by omega, by omega⟩

lemma check_valid_aux_all_false (bounds : BoundingBox) (op : Rect → Rect → Bool)
    (size : SizeSpec) (res : ℚ) (fp : Rect) (mr : ℤ) (us : ℕ → ℚ × ℚ)
    (hop : ∀ n : ℕ,
      op (shapely_box (get_random_bounding_box bounds size res (us n).1 (us n).2).minx
        (get_random_bounding_box bounds size res (us n).1 (us n).2).miny
        (get_random_bounding_box bounds size res (us n).1 (us n).2).maxx
        (get_random_bounding_box bounds size res (us n).1 (us n).2).maxy) fp = false) :
    ∀ fuel retries : ℕ, 1 ≤ fuel → (retries : ℤ) + fuel = max ((retries : ℤ) + 1) mr →
      check_valid_aux bounds op size res fp mr us fuel retries =
        some (get_random_bounding_box bounds size res
          (us (retries + fuel)).1 (us (retries + fuel)).2, retries + fuel) := by
  intro fuel
  induction fuel with
  | zero => omega
  | succ f ih =>
    intro retries _ hstop
    simp only [check_valid_aux, hop (retries + 1), Bool.false_or]
    rcases Nat.eq_zero_or_pos f with hf0 | hfpos
    · subst hf0
      have hle : mr ≤ (retries : ℤ) + 1 := by
        rw [max_def] at hstop
        split at hstop <;> omega
      rw [if_pos (by simpa using hle)]
    · have hmr : mr = (retries : ℤ) + f + 1 := by
        rw [max_def] at hstop
        split at hstop <;> omega
      rw [if_neg (by simp; omega)]
      have harith : retries + 1 + f = retries + (f + 1) := by omega
      have := ih (retries + 1) hfpos (by rw [max_def]; split <;> omega)
      rw [harith] at this
      exact this

lemma runner_fuel_pos (mr : ℤ) : 1 ≤ (max 1 mr).toNat := by
  have h : (1 : ℤ) ≤ max 1 mr := le_max_left 1 mr
  omega

lemma runner_fuel_cast (mr : ℤ) : (((max 1 mr).toNat : ℤ)) = max 1 mr := by
  have h : (1 : ℤ) ≤ max 1 mr := le_max_left 1 mr
  omega

lemma runner_total (bounds : BoundingBox) (op : Rect → Rect → Bool)
    (size : SizeSpec) (res : ℚ) (fp : Rect) (mr : ℤ) (us : ℕ → ℚ × ℚ) :
    ∃ bb r, get_random_bounding_box_check_valid_overlap bounds op size res fp mr us =
      some (bb, r) ∧ 1 ≤ r ∧ (r : ℤ) ≤ max 1 mr := by
  obtain ⟨bb, r, heq, h1, h2⟩ :=
    check_valid_aux_total bounds op size res fp mr us (max 1 mr).toNat 0
      (runner_fuel_pos mr)
      (by rw [Int.ofNat_zero, zero_add, runner_fuel_cast]; exact le_max_right 1 mr)
  refine ⟨bb, r, heq, by omega, ?_⟩
  have := runner_fuel_cast mr
  omega

lemma runner_all_false (bounds : BoundingBox) (op : Rect → Rect → Bool)
    (size : SizeSpec) (res : ℚ) (fp : Rect) (mr : ℤ) (us : ℕ → ℚ × ℚ)
    (hop : ∀ n : ℕ,
      op (shapely_box (get_random_bounding_box bounds size res (us n).1 (us n).2).minx
        (get_random_bounding_box bounds size res (us n).1 (us n).2).miny
        (get_random_bounding_box bounds size res (us n).1 (us n).2).maxx
        (get_random_bounding_box bounds size res (us n).1 (us n).2).maxy) fp = false) :
    get_random_bounding_box_check_valid_overlap bounds op size res fp mr us =
      some (get_random_bounding_box bounds size res
        (us ((max 1 mr).toNat)).1 (us ((max 1 mr).toNat)).2, (max 1 mr).toNat) := by
  have h := check_valid_aux_all_false bounds op size res fp mr us hop
    (max 1 mr).toNat 0 (runner_fuel_pos mr)
    (by rw [Int.ofNat_zero, zero_add, zero_add, runner_fuel_cast])
  simpa using h

lemma runner_first_true (bounds : BoundingBox) (op : Rect → Rect → Bool)
    (size : SizeSpec) (res : ℚ) (fp : Rect) (mr : ℤ) (us : ℕ → ℚ × ℚ)
    (h : op (shapely_box (get_random_bounding_box bounds size res (us 1).1 (us 1).2).minx
      (get_random_bounding_box bounds size res (us 1).1 (us 1).2).miny
      (get_random_bounding_box bounds size res (us 1).1 (us 1).2).maxx
      (get_random_bounding_box bounds size res (us 1).1 (us 1).2).maxy) fp = true) :
    get_random_bounding_box_check_valid_overlap bounds op size res fp mr us =
      some (get_random_bounding_box bounds size res (us 1).1 (us 1).2, 1) := by
  obtain ⟨f, hf⟩ := Nat.exists_eq_add_of_le (runner_fuel_pos mr)
  unfold get_random_bounding_box_check_valid_overlap
  rw [show (max 1 mr).toNat = f + 1 by omega]
  simp only [check_valid_aux, zero_add, h, Bool.true_or, if_pos]

lemma runner_le_zero (bounds : BoundingBox) (op : Rect → Rect → Bool)
    (size : SizeSpec) (res : ℚ) (fp : Rect) (mr : ℤ) (us : ℕ → ℚ × ℚ)
    (h : mr ≤ 0) :
    get_random_bounding_box_check_valid_overlap bounds op size res fp mr us =
      some (get_random_bounding_box bounds size res (us 1).1 (us 1).2, 1) := by
  unfold get_random_bounding_box_check_valid_overlap
  rw [show (max 1 mr).toNat = 1 by rw [max_def]; split <;> omega]
  have hd : decide (mr ≤ ((0 + 1 : ℕ) : ℤ)) = true := by
    simp
    omega
  simp only [check_valid_aux, zero_add, hd, Bool.or_true, if_pos]

/-- C2 (amended): the constrained sampler always terminates, within
max(max_retries, 1) loop iterations (one iteration always runs, so a
non-positive max_retries still costs one draw); when the predicate never
holds on any drawn candidate, no error is raised and the candidate drawn
on the last iteration is returned unconditionally. -/
theorem c2_loop_terminates (bounds : BoundingBox) (op : Rect → Rect → Bool)
    (size : SizeSpec) (res : ℚ) (fp : Rect) (mr : ℤ) (us : ℕ → ℚ × ℚ) :
    (∃ bb r, get_random_bounding_box_check_valid_overlap bounds op size res fp mr us =
      some (bb, r) ∧ 1 ≤ r ∧ (r : ℤ) ≤ max 1 mr) ∧
    ((∀ n : ℕ,
      op (shapely_box (get_random_bounding_box bounds size res (us n).1 (us n).2).minx
        (get_random_bounding_box bounds size res (us n).1 (us n).2).miny
        (get_random_bounding_box bounds size res (us n).1 (us n).2).maxx
        (get_random_bounding_box bounds size res (us n).1 (us n).2).maxy) fp = false) →
      get_random_bounding_box_check_valid_overlap bounds op size res fp mr us =
        some (get_random_bounding_box bounds size res
          (us ((max 1 mr).toNat)).1 (us ((max 1 mr).toNat)).2, (max 1 mr).toNat)) :=
  ⟨runner_total bounds op size res fp mr us,
   fun hop => runner_all_false bounds op size res fp mr us hop⟩

theorem c2_witness :
    (∃ bb r, get_random_bounding_box_check_valid_overlap ⟨0, 10, 0, 10, 0, 1⟩
      (fun _ _ => false) (SizeSpec.scalar 5) 1 ⟨20, 20, 21, 21⟩ 2 (fun _ => (0, 0)) =
      some (bb, r) ∧ 1 ≤ r ∧ (r : ℤ) ≤ max 1 2) ∧
    get_random_bounding_box_check_valid_overlap ⟨0, 10, 0, 10, 0, 1⟩
      (fun _ _ => false) (SizeSpec.scalar 5) 1 ⟨20, 20, 21, 21⟩ 2 (fun _ => (0, 0)) =
      some (get_random_bounding_box ⟨0, 10, 0, 10, 0, 1⟩ (SizeSpec.scalar 5) 1 0 0,
        (max 1 (2:ℤ)).toNat) :=
  ⟨(c2_loop_terminates ⟨0, 10, 0, 10, 0, 1⟩ (fun _ _ => false) (SizeSpec.scalar 5) 1
      ⟨20, 20, 21, 21⟩ 2 (fun _ => (0, 0))).1,
   (c2_loop_terminates ⟨0, 10, 0, 10, 0, 1⟩ (fun _ _ => false) (SizeSpec.scalar 5) 1
      ⟨20, 20, 21, 21⟩ 2 (fun _ => (0, 0))).2 (fun _ => rfl)⟩

theorem c2_counterexample :
    get_random_bounding_box_check_valid_overlap ⟨0, 10, 0, 10, 0, 1⟩
      (fun _ _ => false) (SizeSpec.scalar 5) 1 ⟨20, 20, 21, 21⟩ 0 (fun _ => (0, 0)) =
      some (get_random_bounding_box ⟨0, 10, 0, 10, 0, 1⟩ (SizeSpec.scalar 5) 1 0 0, 1) ∧
    ¬ ((1 : ℤ) ≤ 0) :=
  ⟨runner_le_zero ⟨0, 10, 0, 10, 0, 1⟩ (fun _ _ => false) (SizeSpec.scalar 5) 1
    ⟨20, 20, 21, 21⟩ 0 (fun _ => (0, 0)) (le_refl 0), by norm_num⟩

/-- C7: with max_retries = 5 and a footprint on which the predicate
rejects every drawn candidate, the loop runs exactly 5 iterations and
returns the fifth candidate. -/
theorem c7_exhausts_in_five (bounds : BoundingBox) (op : Rect → Rect → Bool)
    (size : SizeSpec) (res : ℚ) (fp : Rect) (us : ℕ → ℚ × ℚ)
    (hop : ∀ n : ℕ,
      op (shapely_box (get_random_bounding_box bounds size res (us n).1 (us n).2).minx
        (get_random_bounding_box bounds size res (us n).1 (us n).2).miny
        (get_random_bounding_box bounds size res (us n).1 (us n).2).maxx
        (get_random_bounding_box bounds size res (us n).1 (us n).2).maxy) fp = false) :
    get_random_bounding_box_check_valid_overlap bounds op size res fp 5 us =
      some (get_random_bounding_box bounds size res (us 5).1 (us 5).2, 5) := by
  have h := runner_all_false bounds op size res fp 5 us hop
  rwa [show ((max 1 (5:ℤ)).toNat) = 5 by rfl] at h

theorem c7_witness :
    get_random_bounding_box_check_valid_overlap ⟨0, 10, 0, 10, 0, 1⟩
      (fun _ _ => false) (SizeSpec.scalar 5) 1 ⟨20, 20, 21, 21⟩ 5 (fun _ => (0, 0)) =
      some (get_random_bounding_box ⟨0, 10, 0, 10, 0, 1⟩ (SizeSpec.scalar 5) 1 0 0, 5) :=
  c7_exhausts_in_five ⟨0, 10, 0, 10, 0, 1⟩ (fun _ _ => false) (SizeSpec.scalar 5) 1
    ⟨20, 20, 21, 21⟩ (fun _ => (0, 0)) (fun _ => rfl)

/-- C9: for every max_retries ≤ 0 the loop still terminates: the
exhaustion check fires on the first iteration and the first candidate is
returned unconditionally, whatever the predicate returns. -/
theorem c9_nonpositive_max_retries (bounds : BoundingBox) (op : Rect → Rect → Bool)
    (size : SizeSpec) (res : ℚ) (fp : Rect) (mr : ℤ) (us : ℕ → ℚ × ℚ)
    (h : mr ≤ 0) :
    get_random_bounding_box_check_valid_overlap bounds op size res fp mr us =
      some (get_random_bounding_box bounds size res (us 1).1 (us 1).2, 1) :=
  runner_le_zero bounds op size res fp mr us h

theorem c9_witness :
    get_random_bounding_box_check_valid_overlap ⟨0, 10, 0, 10, 0, 1⟩
      shapely_overlaps (SizeSpec.scalar 5) 1 ⟨20, 20, 21, 21⟩ (-3) (fun _ => (0, 0)) =
      some (get_random_bounding_box ⟨0, 10, 0, 10, 0, 1⟩ (SizeSpec.scalar 5) 1 0 0, 1) :=
  c9_nonpositive_max_retries ⟨0, 10, 0, 10, 0, 1⟩ shapely_overlaps (SizeSpec.scalar 5) 1
    ⟨20, 20, 21, 21⟩ (-3) (fun _ => (0, 0)) (by norm_num)

theorem c4_counterexample :
    get_random_bounding_box_check_valid_overlap ⟨0, 10, 0, 10, 0, 1⟩
      shapely_overlaps (SizeSpec.scalar 5) 1 ⟨0, 0, 10, 10⟩ 3 (fun _ => (0, 0)) =
      some (get_random_bounding_box ⟨0, 10, 0, 10, 0, 1⟩ (SizeSpec.scalar 5) 1 0 0, 3) ∧
    (3 : ℕ) ≠ 1 := by
  have hc : get_random_bounding_box ⟨0, 10, 0, 10, 0, 1⟩ (SizeSpec.scalar 5) 1 0 0 =
      ⟨0, 5, 0, 5, 0, 1⟩ := by
    norm_num [get_random_bounding_box, _to_tuple]
  have hsub : rect_subset (shapely_box 0 0 5 5) ⟨0, 0, 10, 10⟩ = true := by
    simp [rect_subset, shapely_box]
    norm_num
  have hop : ∀ n : ℕ,
      shapely_overlaps
        (shapely_box
          (get_random_bounding_box ⟨0, 10, 0, 10, 0, 1⟩ (SizeSpec.scalar 5) 1
            ((fun _ : ℕ => ((0:ℚ), (0:ℚ))) n).1 ((fun _ : ℕ => ((0:ℚ), (0:ℚ))) n).2).minx
          (get_random_bounding_box ⟨0, 10, 0, 10, 0, 1⟩ (SizeSpec.scalar 5) 1
            ((fun _ : ℕ => ((0:ℚ), (0:ℚ))) n).1 ((fun _ : ℕ => ((0:ℚ), (0:ℚ))) n).2).miny
          (get_random_bounding_box ⟨0, 10, 0, 10, 0, 1⟩ (SizeSpec.scalar 5) 1
            ((fun _ : ℕ => ((0:ℚ), (0:ℚ))) n).1 ((fun _ : ℕ => ((0:ℚ), (0:ℚ))) n).2).maxx
          (get_random_bounding_box ⟨0, 10, 0, 10, 0, 1⟩ (SizeSpec.scalar 5) 1
            ((fun _ : ℕ => ((0:ℚ), (0:ℚ))) n).1 ((fun _ : ℕ => ((0:ℚ), (0:ℚ))) n).2).maxy)
        ⟨0, 0, 10, 10⟩ = false := by
    intro n
    show shapely_overlaps
      (shapely_box
        (get_random_bounding_box ⟨0, 10, 0, 10, 0, 1⟩ (SizeSpec.scalar 5) 1 0 0).minx
        (get_random_bounding_box ⟨0, 10, 0, 10, 0, 1⟩ (SizeSpec.scalar 5) 1 0 0).miny
        (get_random_bounding_box ⟨0, 10, 0, 10, 0, 1⟩ (SizeSpec.scalar 5) 1 0 0).maxx
        (get_random_bounding_box ⟨0, 10, 0, 10, 0, 1⟩ (SizeSpec.scalar 5) 1 0 0).maxy)
      ⟨0, 0, 10, 10⟩ = false
    rw [hc]
    simp [shapely_overlaps, hsub]
  have h := runner_all_false ⟨0, 10, 0, 10, 0, 1⟩ shapely_overlaps (SizeSpec.scalar 5) 1
    ⟨0, 0, 10, 10⟩ 3 (fun _ => (0, 0)) hop
  rw [show ((max 1 (3:ℤ)).toNat) = 3 by rfl] at h
  exact ⟨h, by norm_num⟩

/-- C4 (amended): with the footprint equal to the full spatial extent of
the bounds, it is the "within" predicate (not "overlaps", which rejects a
contained candidate) that the very first drawn candidate always
satisfies, for any valid positive size not exceeding the extent, positive
res and first random draw in [0,1): the sampler returns after exactly one
iteration with retries = 1. -/
theorem c4_within_first_attempt (bounds : BoundingBox) (size : SizeSpec)
    (res : ℚ) (mr : ℤ) (us : ℕ → ℚ × ℚ) (hres : 0 < res)
    (hh0 : 0 < (_to_tuple size).1) (hw0 : 0 < (_to_tuple size).2)
    (hh : (_to_tuple size).1 ≤ bounds.maxy - bounds.miny)
    (hw : (_to_tuple size).2 ≤ bounds.maxx - bounds.minx)
    (hux0 : 0 ≤ (us 1).1) (hux1 : (us 1).1 < 1)
    (huy0 : 0 ≤ (us 1).2) (huy1 : (us 1).2 < 1) :
    get_random_bounding_box_check_valid_overlap bounds shapely_within size res
      (shapely_box bounds.minx bounds.miny bounds.maxx bounds.maxy) mr us =
      some (get_random_bounding_box bounds size res (us 1).1 (us 1).2, 1) := by
  apply runner_first_true
  obtain ⟨ex, ax, ey, ay, _, _⟩ := grbb_fields bounds size res (us 1).1 (us 1).2
  have hx := offset_mem bounds.minx bounds.maxx (_to_tuple size).2 res (us 1).1 _
    hres hux0 hux1 hw rfl
  have hy := offset_mem bounds.miny bounds.maxy (_to_tuple size).1 res (us 1).2 _
    hres huy0 huy1 hh rfl
  have hminx : bounds.minx ≤
      (get_random_bounding_box bounds size res (us 1).1 (us 1).2).minx := by
    rw [ex]; exact hx.1
  have hmaxx : (get_random_bounding_box bounds size res (us 1).1 (us 1).2).maxx ≤
      bounds.maxx := by
    rw [ax, ex]; exact hx.2
  have hminy : bounds.miny ≤
      (get_random_bounding_box bounds size res (us 1).1 (us 1).2).miny := by
    rw [ey]; exact hy.1
  have hmaxy : (get_random_bounding_box bounds size res (us 1).1 (us 1).2).maxy ≤
      bounds.maxy := by
    rw [ay, ey]; exact hy.2
  have hxlt : (get_random_bounding_box bounds size res (us 1).1 (us 1).2).minx <
      (get_random_bounding_box bounds size res (us 1).1 (us 1).2).maxx := by
    rw [ax]; linarith
  have hylt : (get_random_bounding_box bounds size res (us 1).1 (us 1).2).miny <
      (get_random_bounding_box bounds size res (us 1).1 (us 1).2).maxy := by
    rw [ay]; linarith
  simp only [shapely_within, shapely_box, rect_subset, rect_interiors_intersect,
    Bool.and_eq_true, decide_eq_true_eq]
  refine ⟨⟨hminx, hmaxx, hminy, hmaxy⟩, ?_, ?_⟩
  · rw [max_lt_iff]
    exact ⟨lt_min_iff.mpr ⟨hxlt, by linarith⟩, lt_min_iff.mpr ⟨by linarith, by linarith⟩⟩
  · rw [max_lt_iff]
    exact ⟨lt_min_iff.mpr ⟨hylt, by linarith⟩, lt_min_iff.mpr ⟨by linarith, by linarith⟩⟩

theorem c4_witness :
    get_random_bounding_box_check_valid_overlap ⟨0, 10, 0, 10, 0, 1⟩
      shapely_within (SizeSpec.scalar 5) 1 (shapely_box 0 0 10 10) 7
      (fun _ => (1/2, 1/2)) =
      some (get_random_bounding_box ⟨0, 10, 0, 10, 0, 1⟩
        (SizeSpec.scalar 5) 1 (1/2) (1/2), 1) :=
  c4_within_first_attempt ⟨0, 10, 0, 10, 0, 1⟩ (SizeSpec.scalar 5) 1 7
    (fun _ => (1/2, 1/2)) (by norm_num) (by norm_num [_to_tuple])
    (by norm_num [_to_tuple]) (by norm_num [_to_tuple]) (by norm_num [_to_tuple])
    (by norm_num) (by norm_num) (by norm_num) (by norm_num)
